import Mathlib

/-!
Verification of the stack reconciliation engine of the ET-Tool repository
(`water_rights_visualizer`): date helpers, variable source registry lookup,
sparse stack builder (`generate_stack`), temporal interpolator
(`interpolate_stack`), and the monthly aggregation edge case.

Modeling conventions:
* numpy float32 cells are modeled exactly: a cell is either NaN, a signed
  infinity, or an exact rational number (`FVal`).  Rounding is not modeled;
  all arithmetic identities below are identities of the exact-arithmetic
  model of the code.
* 3-D rasters (time, rows, cols) are modeled with the spatial dimensions
  flattened, matching the `reshape(days, -1)` view the code itself uses:
  a `Stack` is a list of time slots, each slot a list of pixel cells.
* Calendar dates are handled through explicit (year, month, day) numbers;
  the Python `datetime`/`dateutil` calls of `date_helpers.py` are translated
  to their documented day-of-year arithmetic (proleptic Gregorian calendar).
-/

set_option autoImplicit false
set_option maxRecDepth 40000

namespace ETTool

/-- A float32 cell value: NaN, +inf, -inf, or an exact rational. -/
inductive FVal where
  | nan : FVal
  | pinf : FVal
  | ninf : FVal
  | val : ℚ → FVal
deriving DecidableEq, Repr

/-- Translation of `np.isnan` on a cell. Infinities are not NaN. -/
def FVal.isNaN : FVal → Bool
  | .nan => true
  | _ => false

/-- IEEE-style addition on cells (exact rational arithmetic on finite values). -/
def FVal.add : FVal → FVal → FVal
  | .nan, _ => .nan
  | _, .nan => .nan
  | .pinf, .ninf => .nan
  | .ninf, .pinf => .nan
  | .pinf, _ => .pinf
  | _, .pinf => .pinf
  | .ninf, _ => .ninf
  | _, .ninf => .ninf
  | .val a, .val b => .val (a + b)

/-- IEEE-style multiplication on cells. -/
def FVal.mul : FVal → FVal → FVal
  | .nan, _ => .nan
  | _, .nan => .nan
  | .val a, .val b => .val (a * b)
  | .pinf, .pinf => .pinf
  | .pinf, .ninf => .ninf
  | .ninf, .pinf => .ninf
  | .ninf, .ninf => .pinf
  | .pinf, .val b => if b = 0 then .nan else if 0 < b then .pinf else .ninf
  | .val a, .pinf => if a = 0 then .nan else if 0 < a then .pinf else .ninf
  | .ninf, .val b => if b = 0 then .nan else if 0 < b then .ninf else .pinf
  | .val a, .ninf => if a = 0 then .nan else if 0 < a then .ninf else .pinf

/-- IEEE-style division on cells (numpy semantics: `x/0` is `inf`/`-inf`/`nan`
according to the sign of `x`; the model has a single zero, read as `+0`). -/
def FVal.div : FVal → FVal → FVal
  | .nan, _ => .nan
  | _, .nan => .nan
  | .val a, .val b =>
      if b = 0 then (if a = 0 then .nan else if 0 < a then .pinf else .ninf)
      else .val (a / b)
  | .pinf, .val b => if 0 ≤ b then .pinf else .ninf
  | .ninf, .val b => if 0 ≤ b then .ninf else .pinf
  | .val _, .pinf => .val 0
  | .val _, .ninf => .val 0
  | .pinf, .pinf => .nan
  | .pinf, .ninf => .nan
  | .ninf, .pinf => .nan
  | .ninf, .ninf => .nan

/-! ## Date helpers (`date_helpers.py`)

Python `datetime.date(y, m, d).timetuple().tm_yday` is the 1-based day of
year; it is translated here as the sum of the lengths of the preceding
months plus the day of month, with the Gregorian leap rule. -/

/-- Gregorian leap-year rule used by Python `datetime`. -/
def isLeapYear (y : ℕ) : Bool := y % 4 == 0 && (y % 100 != 0 || y % 400 == 0)

/-- Length of month `m` (1-12) of year `y` in days. -/
def monthLength (y : ℕ) (m : ℕ) : ℕ :=
  match m with
  | 1 => 31
  | 2 => if isLeapYear y then 29 else 28
  | 3 => 31
  | 4 => 30
  | 5 => 31
  | 6 => 30
  | 7 => 31
  | 8 => 31
  | 9 => 30
  | 10 => 31
  | 11 => 30
  | 12 => 31
  | _ => 0

/-- Python `datetime.date(y, m, d).timetuple().tm_yday`: 1-based day of year. -/
def tm_yday (y m d : ℕ) : ℕ :=
  (((List.range (m - 1)).map fun i => monthLength y (i + 1)).sum) + d

/-- Source `get_one_month_slice(year, month)`: start (inclusive) and end (exclusive)
0-based day-of-year indices of the month.  The source computes the start as
`tm_yday` of the first of the month minus 1, and the end as `tm_yday` of the
last day of the month (first of month plus one month minus one day). -/
def get_one_month_slice (y m : ℕ) : ℕ × ℕ :=
  (tm_yday y m 1 - 1, tm_yday y m (monthLength y m))

/-- Source `get_days_in_month(year, month)`: end minus start of the month slice. -/
def get_days_in_month (y m : ℕ) : ℕ :=
  (get_one_month_slice y m).2 - (get_one_month_slice y m).1

/-- Source `get_days_in_year(year)`: `(Dec 31 - Jan 1).days + 1`. -/
def get_days_in_year (y : ℕ) : ℕ := tm_yday y 12 31 - tm_yday y 1 1 + 1

/-- Source `get_day_of_year(year, month, day)`: 0-based day of year,
`(date(y,m,d) - date(y,1,1)).days`. -/
def get_day_of_year (y m d : ℕ) : ℕ := tm_yday y m d - 1


/-! ## Variable source registry (`variable_types.py`) -/

/-- One registered data source (`VariableType` in `variable_types.py`).
Dates are modeled as day ordinals (`ℕ`); Python compares `date` objects,
which is the same total order.  The path-valued configuration fields
(file prefix and parent directory) play no role in the lookup logic and are
omitted. -/
structure VariableType where
  id : String
  name : String
  «variable» : String
  mapped_variable : String
  monthly : Bool
  daylight_corrected : Bool
  start : ℕ
  «end» : ℕ
deriving DecidableEq, Repr

/-- The match condition of the registry scan:
`source.variable == variable and date >= source.start and date < source.end`. -/
def matchesSource (v : String) (d : ℕ) (s : VariableType) : Prop :=
  s.«variable» = v ∧ s.start ≤ d ∧ d < s.«end»

instance (v : String) (d : ℕ) (s : VariableType) : Decidable (matchesSource v d s) := by
  unfold matchesSource; infer_instance

/-- Source `get_available_variable_source_for_date(variable, date)`: scan the
registered sources in declaration order and return the first match, `None`
when no source covers the date.  The global `VARIABLE_TYPES` list (loaded
from external YAML configuration) is passed explicitly. -/
def get_available_variable_source_for_date (types : List VariableType) (v : String) (d : ℕ) :
    Option VariableType :=
  match types with
  | [] => none
  | source :: rest =>
      if matchesSource v d source then some source
      else get_available_variable_source_for_date rest v d

/-! ## Temporal interpolator (`interpolate_stack.py`)

The source reshapes the `(days, rows, cols)` stack to `(days, pixels)` and
treats every pixel column independently; the model works directly in that
pixel-column view: a stack is the list of its pixel columns, each a list of
`days` cells. -/

/-- Distance between two day indices. -/
def natDist (a b : ℕ) : ℕ := max a b - min a b

/-- The `(known day index, known value)` pairs of one pixel column:
`known_indices = ~np.isnan(pixel_timeseries)` and the induced
`known_days` / `known_values` arrays, in ascending day order. -/
def knownPairs (col : List FVal) : List (ℕ × FVal) :=
  (List.range col.length).filterMap fun i =>
    if (col.getD i FVal.nan).isNaN then none else some (i, col.getD i FVal.nan)

/-- Keep whichever of two known points is nearer to the query day `x`,
preferring the earlier point on ties.  This is the tie-breaking of
`scipy.interpolate.interp1d(kind="nearest")`, which rounds half-way points
down to the earlier sample. -/
def chooseNearer (x : ℕ) (p q : ℕ × FVal) : ℕ × FVal :=
  if natDist q.1 x < natDist p.1 x then q else p

/-- The known point nearest to day `x` (`interp1d(..., kind="nearest",
fill_value="extrapolate")` evaluated at `x`): boundary days beyond the first
or last known sample also resolve to the nearest known sample. -/
def nearestPoint (x : ℕ) : List (ℕ × FVal) → Option (ℕ × FVal)
  | [] => none
  | p :: ps => some (ps.foldl (chooseNearer x) p)

/-- One pixel column of `interpolate_stack`: columns with fewer than 3 known
samples are skipped and stay at the all-NaN initialization of
`np.full_like(stack_2d, np.nan)`; otherwise the nearest-neighbor interpolant
is evaluated at every day index, overwriting the whole column. -/
def interpolate_col (col : List FVal) : List FVal :=
  if (knownPairs col).length < 3 then List.replicate col.length FVal.nan
  else
    (List.range col.length).map fun x =>
      match nearestPoint x (knownPairs col) with
      | some p => p.2
      | none => FVal.nan

/-- Source `interpolate_stack`, in the pixel-column view: every pixel column is
processed independently. -/
def interpolate_stack (stack : List (List FVal)) : List (List FVal) :=
  stack.map interpolate_col

/-- Number of non-NaN samples in a pixel column. -/
def countKnown (col : List FVal) : ℕ := (knownPairs col).length

/-! ## Sparse stack builder (`generate_stack.py`)

A `Stack` is time-major: a list of `days_in_year` (or 12) time slots, each a
flattened spatial image (list of pixel cells).  An `Image` is one retrieved
raster subset, flattened the same way.  As the spec notes (design note on
affine/shape consistency), the code assumes all subsets of a year share one
shape; the model does the same. -/

/-- A retrieved raster subset, spatial dimensions flattened. -/
abbrev Image : Type := List FVal

/-- A per-variable 3-D stack, time-major, spatial dimensions flattened. -/
abbrev Stack : Type := List Image

/-- Source `generate_sparse_stack(total_date_steps, x_rows, y_cols)`:
`np.full((total_date_steps, x_rows, y_cols), np.nan)`. -/
def generate_sparse_stack (total_date_steps x_rows y_cols : ℕ) : Stack :=
  List.replicate total_date_steps (List.replicate (x_rows * y_cols) FVal.nan)

/-- Read time slot `t` of a stack. -/
def getSlot (st : Stack) (t : ℕ) : Image := st.getD t []

/-- Write time slot `t` of a stack (`stack[t, :, :] = img`). -/
def setSlot (st : Stack) (t : ℕ) (img : Image) : Stack := st.set t img

/-- Translation of `np.where(np.isnan(current), img, current)`: fill only the cells of the
slot that still hold NaN, keep already-written cells. -/
def whereNaNFill (current img : Image) : Image :=
  List.zipWith (fun cur new => if cur.isNaN then new else cur) current img

/-- Translation of `img / n` with a scalar: numpy broadcasting of cell-wise division. -/
def imgDivNat (img : Image) (n : ℕ) : Image :=
  img.map fun x => x.div (FVal.val n)

/-- Translation of `img / 24 * hours`: the daylight scaling of a daily average. -/
def imgScaleSun (img : Image) (hours : ℚ) : Image :=
  img.map fun x => (x.div (FVal.val 24)).mul (FVal.val hours)

/-- Cell-wise quotient of two stacks (`ET_sparse_stack / ESI_sparse_stack`). -/
def stackDiv (a b : Stack) : Stack :=
  List.zipWith (fun sa sb => List.zipWith FVal.div sa sb) a b

/-- The per-day loop `for current_day in range(day_of_year, last_doy)`:
slot `d` of the half-open slot range `[a, b)` receives `f d`. -/
def fillEachDay (st : Stack) (a b : ℕ) (f : ℕ → Image) : Stack :=
  (List.range (b - a)).foldl (fun s k => setSlot s (a + k) (f (a + k))) st

/-- Translation of `stack[a:b, :, :] = img`: write the same image into every slot of the
half-open slot range `[a, b)`. -/
def fillRange (st : Stack) (a b : ℕ) (img : Image) : Stack :=
  fillEachDay st a b fun _ => img

/-- Outcome of one `generate_subset` call for one variable and date. -/
inductive Retrieval where
  | ok : Image → Retrieval
  | blank : Retrieval
  | unavailable : Retrieval
  | err : Retrieval
deriving DecidableEq

/-- Everything `generate_stack` consumes for one date of the loop: the day of
the observation and, for each variable, the retrieval outcome together with
the relevant flags of the registry source resolved for that date.  A PET
lookup that returns no source is folded into `Retrieval.unavailable`, exactly
as the code raises and catches `FileUnavailable` in that case. -/
structure DateStep where
  month : ℕ
  day : ℕ
  et : Retrieval
  pet : Retrieval
  esi : Retrieval
  et_source_monthly : Bool
  pet_source_monthly : Bool
  pet_daylight_corrected : Bool
  esi_source_monthly : Bool
deriving DecidableEq

/-- The three lazily allocated per-variable stacks of one year. -/
structure StackState where
  ET : Option Stack
  PET : Option Stack
  ESI : Option Stack
deriving DecidableEq

/-- The empty state before the date loop. -/
def initState : StackState := ⟨none, none, none⟩

/-- One iteration of the date loop of `generate_stack` (lines 126-326).
`sun month day` stands for `calculate_hours_of_sunlight` at the ROI centroid
for that calendar day; its value enters the loop as a number, and the solar
model itself is treated separately (it is real-valued trigonometry).
Mirrored control flow:
* any ET retrieval failure (`BlankOutput`, `FileUnavailable`, or an
  unexpected exception) skips the date (`continue`), leaving the state as is;
* on ET success, PET is attempted; on any PET failure ESI is attempted as the
  fallback subset;
* the ET stack, and unconditionally also the ESI stack, are allocated (all
  NaN) if still missing;
* the daily-mode ET write targets the start index of the month slice
  (`day_of_year, last_doy = get_one_month_slice(year, month)`) with a
  NaN-only fill; a monthly ET source additionally broadcasts
  `ET_subset / days_in_month` over the whole slice;
* the ESI observation is written only when PET failed on this date, no PET
  stack exists yet, and the ESI subset is present. -/
def stepDate (year : ℕ) (daily : Bool) (sun : ℕ → ℕ → ℚ) (st : StackState) (ev : DateStep) :
    StackState :=
  match ev.et with
  | .ok etImg =>
    let T := if daily then get_days_in_year year else 12
    let start := (get_one_month_slice year ev.month).1
    let last := (get_one_month_slice year ev.month).2
    let dim := get_days_in_month year ev.month
    -- PET branch (lines 206-268), with ESI fallback on failure (lines 270-290)
    let petPair : Option Stack × Option Image :=
      match ev.pet with
      | .ok petImg =>
        let base := match st.PET with
          | some s => s
          | none => generate_sparse_stack T petImg.length 1
        let filled :=
          if !daily && ev.pet_source_monthly then
            -- monthly mode: average daylight hours of the middle day of the month
            setSlot base (ev.month - 1) (imgScaleSun petImg (sun ev.month (dim / 2)))
          else if daily && ev.pet_source_monthly then
            let dailyAvg := imgDivNat petImg dim
            if !ev.pet_daylight_corrected then
              fillEachDay base start last fun d =>
                imgScaleSun dailyAvg (sun ev.month (d - start + 1))
            else
              fillRange base start last dailyAvg
          else
            let doy := get_day_of_year year ev.month ev.day
            setSlot base doy (whereNaNFill (getSlot base doy) petImg)
        (some filled, none)
      | _ =>
        match ev.esi with
        | .ok esiImg => (st.PET, some esiImg)
        | _ => (st.PET, none)
    let PETst := petPair.1
    let esiSub := petPair.2
    -- ET and ESI stack allocation (lines 296-300)
    let ETbase := match st.ET with
      | some s => s
      | none => generate_sparse_stack T etImg.length 1
    let ESIbase := match st.ESI with
      | some s => s
      | none => generate_sparse_stack T etImg.length 1
    -- ET write (lines 302-318)
    let ET1 :=
      if daily then setSlot ETbase start (whereNaNFill (getSlot ETbase start) etImg)
      else setSlot ETbase (ev.month - 1) etImg
    let ET2 :=
      if ev.et_source_monthly then
        if !daily then setSlot ET1 (ev.month - 1) etImg
        else fillRange ET1 start last (imgDivNat etImg dim)
      else ET1
    -- ESI write (lines 320-326)
    let ESI1 :=
      match esiSub with
      | some esiImg =>
        if PETst = none then
          let e1 := setSlot ESIbase start (whereNaNFill (getSlot ESIbase start) esiImg)
          if ev.esi_source_monthly then fillRange e1 start last (imgDivNat esiImg dim) else e1
        else ESIbase
      | none => ESIbase
    { ET := some ET2, PET := PETst, ESI := some ESI1 }
  | _ => st

/-- The whole date loop over the sorted distinct dates of the year. -/
def runDates (year : ℕ) (daily : Bool) (sun : ℕ → ℕ → ℚ) (events : List DateStep) :
    StackState :=
  events.foldl (stepDate year daily sun) initState

/-- Source `generate_stack` after the date loop (lines 123-124 and 328-336): raise
when the year has no dates; raise when no ET stack was generated; raise when
neither a PET nor an ESI stack was generated; derive PET as
`ET_sparse_stack / ESI_sparse_stack` when only the PET stack is missing.
The returned pair holds the sparse ET and PET stacks (interpolation of the
result in daily mode is the separate `interpolate_stack` step). -/
def generate_stack_model (year : ℕ) (daily : Bool) (sun : ℕ → ℕ → ℚ)
    (events : List DateStep) : Except String (Stack × Stack) :=
  if events.isEmpty then .error "no dates for year"
  else
    let st := runDates year daily sun events
    match st.ET with
    | none => .error "no ET stack generated"
    | some et =>
      match st.PET with
      | some pet => .ok (et, pet)
      | none =>
        match st.ESI with
        | none => .error "no PET or ESI stack generated"
        | some esi => .ok (et, stackDiv et esi)

/-- The `try/except` around `generate_stack` in `process_year` (lines
100-129): a raised per-year error is caught and `process_year` returns
`None` instead of crashing the batch. -/
def process_year_model (r : Except String (Stack × Stack)) : Option (Stack × Stack) :=
  match r with
  | .error _ => none
  | .ok x => some x

/-! ## Date/Solar calculator (`date_helpers.py`, daylight functions)

The daylight-hours functions evaluate trigonometric series; they are modeled
over the real numbers (exact values of the float expressions the code
computes), hence the definitions in this section are noncomputable. -/

/-- Source `day_angle_rad_from_doy(doy)`: `(2 * pi * (doy - 1)) / 365`. -/
noncomputable def day_angle_rad_from_doy (doy : ℕ) : ℝ :=
  (2 * Real.pi * ((doy : ℝ) - 1)) / 365

/-- Source `solar_dec_deg_from_day_angle_rad(day_angle_rad)`: the trigonometric
series for solar declination, converted to degrees. -/
noncomputable def solar_dec_deg_from_day_angle_rad (a : ℝ) : ℝ :=
  (0.006918
    - 0.399912 * Real.cos a
    + 0.070257 * Real.sin a
    - 0.006758 * Real.cos (2 * a)
    + 0.000907 * Real.sin (2 * a)
    - 0.002697 * Real.cos (3 * a)
    + 0.00148 * Real.sin (3 * a)) * (180 / Real.pi)

/-- Translation of `math.radians`. -/
noncomputable def radiansOfDeg (deg : ℝ) : ℝ := deg * (Real.pi / 180)

/-- Translation of `math.degrees`. -/
noncomputable def degreesOfRad (rad : ℝ) : ℝ := rad * (180 / Real.pi)

/-- Source `sha_deg_from_doy_lat(doy, latitude)`: sunrise hour angle in degrees,
with the polar corrections. -/
noncomputable def sha_deg_from_doy_lat (doy : ℕ) (latitude : ℝ) : ℝ :=
  let day_angle_rad := day_angle_rad_from_doy doy
  let solar_dec_deg := solar_dec_deg_from_day_angle_rad day_angle_rad
  let latitude_rad := radiansOfDeg latitude
  let solar_dec_rad := radiansOfDeg solar_dec_deg
  let sunrise_cos := -Real.tan latitude_rad * Real.tan solar_dec_rad
  if 1 ≤ sunrise_cos then 0
  else if sunrise_cos ≤ -1 then 180
  else degreesOfRad (Real.arccos sunrise_cos)

/-- Source `daylight_from_sha(sha_deg)`: `(2.0 / 15.0) * sha_deg`. -/
noncomputable def daylight_from_sha (sha_deg : ℝ) : ℝ := (2 / 15) * sha_deg

/-- Source `calculate_hours_of_sunlight(ROI_latlon, date_step)`, with the centroid
latitude passed directly and the date passed as its 1-based day of year
(`date_step.timetuple().tm_yday`). -/
noncomputable def calculate_hours_of_sunlight (latitude : ℝ) (doy : ℕ) : ℝ :=
  daylight_from_sha (sha_deg_from_doy_lat doy latitude)

/-- The per-day corrected PET value of `generate_stack` lines 253-254:
`corrected_daily_pet_avg = daily_pet_avg / 24 * hours_of_sunlight`, as the
real number the code computes for a given daily average, centroid latitude
and day of year. -/
noncomputable def corrected_daily_pet_value (daily_avg latitude : ℝ) (doy : ℕ) : ℝ :=
  daily_avg / 24 * calculate_hours_of_sunlight latitude doy

/-! ## Monthly aggregation edge case -/

/-- Modelled from the spec: the monthly aggregation step (`process_monthly`)
is not among the source files; per the spec it sums (or averages) the month
slice of a pixel and must yield NaN, not 0, when the slice is entirely NaN:
"if the monthly slice is entirely NaN ... the resulting sum/mean must be
NaN, not zero". -/
def monthly_aggregate (slice : List FVal) : FVal :=
  if slice.all (fun v => v.isNaN) then FVal.nan
  else FVal.val ((slice.filterMap fun v =>
    match v with
    | .val q => some q
    | _ => none).sum)

/-- Re-summing the redistributed daily values of a month: the sum, over the
slots of the month slice `[a, b)`, of pixel `p` of each slot (`np.sum` along
the time axis, as the monthly aggregation does in daily mode). -/
def monthResum (st : Stack) (a b p : ℕ) : FVal :=
  (List.range (b - a)).foldl
    (fun acc k => FVal.add acc ((getSlot st (a + k)).getD p FVal.nan)) (FVal.val 0)

/-! ## Concrete inputs used by the claim witnesses -/

/-- A constant daylight-hours table for concrete runs. -/
def sunConst : ℕ → ℕ → ℚ := fun _ _ => 12

/-- A non-monthly daily-mode ET observation on 2021-03-15 with pixel value 5. -/
def c1ev : DateStep :=
  { month := 3, day := 15, et := .ok [FVal.val 5], pet := .unavailable, esi := .unavailable,
    et_source_monthly := false, pet_source_monthly := false,
    pet_daylight_corrected := true, esi_source_monthly := false }

/-- A second non-monthly ET observation in the same month, 2021-03-20, value 9. -/
def c1ev2 : DateStep :=
  { month := 3, day := 20, et := .ok [FVal.val 9], pet := .unavailable, esi := .unavailable,
    et_source_monthly := false, pet_source_monthly := false,
    pet_daylight_corrected := true, esi_source_monthly := false }

/-- A two-pixel-column stack: one column with 3 known samples, one with 1. -/
def c2stack : List (List FVal) :=
  [[FVal.val 5, FVal.nan, FVal.val 8, FVal.nan, FVal.val 3],
   [FVal.nan, FVal.val 1, FVal.nan, FVal.nan, FVal.nan]]

/-- Registry source covering days `[0, 10)` of variable ET. -/
def c3s1 : VariableType :=
  { id := "s1", name := "Source 1", «variable» := "ET", mapped_variable := "ET",
    monthly := false, daylight_corrected := true, start := 0, «end» := 10 }

/-- Registry source covering days `[5, 15)` of the same variable: the two
declared ranges overlap on `[5, 10)`. -/
def c3s2 : VariableType :=
  { id := "s2", name := "Source 2", «variable» := "ET", mapped_variable := "ET",
    monthly := false, daylight_corrected := true, start := 5, «end» := 15 }

/-- An ET-only observation (PET and ESI unavailable) on 2021-01-01, value 2. -/
def c4ev : DateStep :=
  { month := 1, day := 1, et := .ok [FVal.val 2], pet := .unavailable, esi := .unavailable,
    et_source_monthly := false, pet_source_monthly := false,
    pet_daylight_corrected := true, esi_source_monthly := false }

/-- A date whose ET retrieval raises `FileUnavailable`. -/
def c5ev : DateStep :=
  { month := 1, day := 1, et := .unavailable, pet := .unavailable, esi := .unavailable,
    et_source_monthly := false, pet_source_monthly := false,
    pet_daylight_corrected := true, esi_source_monthly := false }

/-- A monthly, not daylight-corrected PET observation for January 2021. -/
def c6evA : DateStep :=
  { month := 1, day := 1, et := .ok [FVal.val 1], pet := .ok [FVal.val 48],
    esi := .unavailable, et_source_monthly := false, pet_source_monthly := true,
    pet_daylight_corrected := false, esi_source_monthly := false }

/-- A monthly, daylight-corrected PET observation for January 2021. -/
def c6evB : DateStep :=
  { month := 1, day := 1, et := .ok [FVal.val 1], pet := .ok [FVal.val 48],
    esi := .unavailable, et_source_monthly := false, pet_source_monthly := true,
    pet_daylight_corrected := true, esi_source_monthly := false }

/-! ## Helper lemmas -/

lemma div_nan_left (x : FVal) : FVal.div FVal.nan x = FVal.nan := by
  cases x <;> rfl

lemma div_nan_right (x : FVal) : FVal.div x FVal.nan = FVal.nan := by
  cases x <;> rfl

lemma zipWith_div_getD (l1 l2 : List FVal) (i : ℕ) :
    (List.zipWith FVal.div l1 l2).getD i FVal.nan
      = FVal.div (l1.getD i FVal.nan) (l2.getD i FVal.nan) := by
  induction l1 generalizing l2 i with
  | nil => cases l2 <;> cases i <;> simp [div_nan_left]
  | cons a as ih =>
    cases l2 with
    | nil => cases i <;> simp [div_nan_right]
    | cons b bs =>
      cases i with
      | zero => rfl
      | succ j => simpa using ih bs j

lemma getSlot_stackDiv (a b : Stack) (t : ℕ) :
    getSlot (stackDiv a b) t = List.zipWith FVal.div (getSlot a t) (getSlot b t) := by
  unfold getSlot stackDiv
  induction a generalizing b t with
  | nil => cases b <;> cases t <;> simp
  | cons s1 as ih =>
    cases b with
    | nil => cases t <;> simp
    | cons s2 bs =>
      cases t with
      | zero => rfl
      | succ u => simpa using ih bs u

lemma length_setSlot (st : Stack) (t : ℕ) (img : Image) :
    (setSlot st t img).length = st.length := List.length_set st t img

lemma getSlot_setSlot_self {st : Stack} {t : ℕ} (img : Image) (h : t < st.length) :
    getSlot (setSlot st t img) t = img := by
  unfold getSlot setSlot
  induction st generalizing t with
  | nil => simp at h
  | cons s ss ih =>
    cases t with
    | zero => rfl
    | succ u => simpa using ih (by simpa using h)

lemma getSlot_setSlot_ne {st : Stack} {t u : ℕ} (img : Image) (h : t ≠ u) :
    getSlot (setSlot st t img) u = getSlot st u := by
  unfold getSlot setSlot
  induction st generalizing t u with
  | nil => rfl
  | cons s ss ih =>
    cases t with
    | zero =>
      cases u with
      | zero => exact absurd rfl h
      | succ w => rfl
    | succ t0 =>
      cases u with
      | zero => rfl
      | succ w => simpa using ih (fun he => h (by omega))

lemma foldl_setRange_length (f : ℕ → Image) (a : ℕ) (cnt : ℕ) (st : Stack) :
    ((List.range cnt).foldl (fun s k => setSlot s (a + k) (f (a + k))) st).length
      = st.length := by
  induction cnt with
  | zero => rfl
  | succ n ih =>
    rw [List.range_succ, List.foldl_append, List.foldl_cons, List.foldl_nil, length_setSlot, ih]

lemma foldl_setRange_get_in (f : ℕ → Image) (a : ℕ) (cnt : ℕ) (st : Stack) (d : ℕ)
    (hb : a + cnt ≤ st.length) (h1 : a ≤ d) (h2 : d < a + cnt) :
    getSlot ((List.range cnt).foldl (fun s k => setSlot s (a + k) (f (a + k))) st) d
      = f d := by
  induction cnt with
  | zero => omega
  | succ n ih =>
    rw [List.range_succ, List.foldl_append, List.foldl_cons, List.foldl_nil]
    by_cases hd : d = a + n
    · subst hd
      exact getSlot_setSlot_self _ (by rw [foldl_setRange_length]; omega)
    · rw [getSlot_setSlot_ne _ (by omega : a + n ≠ d)]
      exact ih (by omega) (by omega)

lemma length_fillEachDay (st : Stack) (a b : ℕ) (f : ℕ → Image) :
    (fillEachDay st a b f).length = st.length :=
  foldl_setRange_length f a (b - a) st

lemma getSlot_fillEachDay_in {st : Stack} {a b d : ℕ} (f : ℕ → Image)
    (hb : b ≤ st.length) (h1 : a ≤ d) (h2 : d < b) :
    getSlot (fillEachDay st a b f) d = f d :=
  foldl_setRange_get_in f a (b - a) st d (by omega) h1 (by omega)

lemma length_fillRange (st : Stack) (a b : ℕ) (img : Image) :
    (fillRange st a b img).length = st.length := length_fillEachDay st a b _

lemma getSlot_fillRange_in {st : Stack} {a b d : ℕ} (img : Image)
    (hb : b ≤ st.length) (h1 : a ≤ d) (h2 : d < b) :
    getSlot (fillRange st a b img) d = img :=
  getSlot_fillEachDay_in _ hb h1 h2

lemma length_generate_sparse_stack (t r c : ℕ) :
    (generate_sparse_stack t r c).length = t := List.length_replicate t _

lemma natDist_self (x : ℕ) : natDist x x = 0 := by simp [natDist]

lemma natDist_eq_zero {a b : ℕ} (h : natDist a b = 0) : a = b := by
  unfold natDist at h; omega

lemma getD_range {n i d : ℕ} (h : i < n) : (List.range n).getD i d = i := by
  rw [List.getD_eq_getElem?_getD, List.getElem?_range h]; rfl

lemma getD_replicate_lt {α : Type} (a d : α) (n i : ℕ) (h : i < n) :
    (List.replicate n a).getD i d = a := by
  induction n generalizing i with
  | zero => omega
  | succ k ih =>
    cases i with
    | zero => rfl
    | succ j => exact ih j (by omega)

lemma getD_map_of_lt {α β : Type} (f : α → β) (d1 : α) (d2 : β) (l : List α) (i : ℕ)
    (h : i < l.length) : (l.map f).getD i d2 = f (l.getD i d1) := by
  induction l generalizing i with
  | nil => simp at h
  | cons a as ih =>
    cases i with
    | zero => rfl
    | succ j => simpa using ih j (by simpa using h)

lemma getD_range_map {α : Type} (g : ℕ → α) (d : α) {n i : ℕ} (h : i < n) :
    ((List.range n).map g).getD i d = g i := by
  rw [getD_map_of_lt g 0 d _ i (by simpa using h), getD_range h]

lemma filterMap_eq_map_of_forall {α β : Type} (f : α → Option β) (g : α → β)
    (l : List α) (h : ∀ a ∈ l, f a = some (g a)) : l.filterMap f = l.map g := by
  induction l with
  | nil => rfl
  | cons a as ih =>
    rw [List.filterMap_cons, h a (List.mem_cons_self a as), List.map_cons,
      ih fun x hx => h x (List.mem_cons_of_mem a hx)]

lemma nearest_mem (x : ℕ) (p : ℕ × FVal) (ps : List (ℕ × FVal)) :
    ps.foldl (chooseNearer x) p ∈ p :: ps := by
  induction ps generalizing p with
  | nil => simp
  | cons q qs ih =>
    rw [List.foldl_cons]
    rcases List.mem_cons.mp (ih (chooseNearer x p q)) with h | h
    · rw [h]
      unfold chooseNearer
      split
      · simp
      · simp
    · exact List.mem_cons_of_mem _ (List.mem_cons_of_mem _ h)

lemma nearest_minDist (x : ℕ) (p : ℕ × FVal) (ps : List (ℕ × FVal)) :
    ∀ q ∈ p :: ps, natDist (ps.foldl (chooseNearer x) p).1 x ≤ natDist q.1 x := by
  induction ps generalizing p with
  | nil =>
    intro q hq
    rcases List.mem_cons.mp hq with h | h
    · subst h; exact Nat.le_refl _
    · simp at h
  | cons a as ih =>
    intro q hq
    rw [List.foldl_cons]
    have hch : natDist (chooseNearer x p a).1 x ≤ natDist p.1 x
        ∧ natDist (chooseNearer x p a).1 x ≤ natDist a.1 x := by
      unfold chooseNearer
      split <;> constructor <;> omega
    rcases List.mem_cons.mp hq with h | h
    · rw [h]
      exact le_trans (ih (chooseNearer x p a) _ (List.mem_cons_self _ _)) hch.1
    · rcases List.mem_cons.mp h with h | h
      · rw [h]
        exact le_trans (ih (chooseNearer x p a) _ (List.mem_cons_self _ _)) hch.2
      · exact ih (chooseNearer x p a) q (List.mem_cons_of_mem _ h)

lemma mem_knownPairs {col : List FVal} {p : ℕ × FVal} (h : p ∈ knownPairs col) :
    p.1 < col.length ∧ col.getD p.1 FVal.nan = p.2 ∧ p.2.isNaN = false := by
  unfold knownPairs at h
  rcases List.mem_filterMap.mp h with ⟨i, hi, hfi⟩
  rw [List.mem_range] at hi
  by_cases hn : (col.getD i FVal.nan).isNaN
  · rw [if_pos hn] at hfi
    exact Option.noConfusion hfi
  · rw [if_neg hn, Option.some.injEq] at hfi
    subst hfi
    exact ⟨hi, rfl, by simpa using hn⟩

lemma knownPairs_length_le (col : List FVal) : (knownPairs col).length ≤ col.length := by
  unfold knownPairs
  calc ((List.range col.length).filterMap _).length
      ≤ (List.range col.length).length := List.length_filterMap_le _ _
    _ = col.length := List.length_range col.length

lemma knownPairs_all_nan {col : List FVal} (h : ∀ v ∈ col, v.isNaN = true) :
    knownPairs col = [] := by
  unfold knownPairs
  rw [List.filterMap_eq_nil_iff]
  intro i hi
  rw [List.mem_range] at hi
  have hmem : col.getD i FVal.nan ∈ col := by
    rw [List.getD_eq_getElem?_getD, List.getElem?_eq_getElem hi]
    exact List.getElem_mem hi
  rw [if_pos (by rw [h _ hmem])]

lemma knownPairs_of_no_nan {col : List FVal}
    (h : ∀ i, i < col.length → (col.getD i FVal.nan).isNaN = false) :
    knownPairs col = (List.range col.length).map fun i => (i, col.getD i FVal.nan) := by
  unfold knownPairs
  apply filterMap_eq_map_of_forall
  intro i hi
  rw [List.mem_range] at hi
  rw [if_neg (by rw [h i hi]; exact Bool.false_ne_true)]

lemma nearestPoint_mem {x : ℕ} {ks : List (ℕ × FVal)} {r : ℕ × FVal}
    (h : nearestPoint x ks = some r) : r ∈ ks := by
  cases ks with
  | nil => simp [nearestPoint] at h
  | cons p ps =>
    rw [nearestPoint, Option.some.injEq] at h
    rw [← h]
    exact nearest_mem x p ps

lemma nearestPoint_self {n : ℕ} (g : ℕ → FVal) {x : ℕ} (hx : x < n) :
    nearestPoint x ((List.range n).map fun i => (i, g i)) = some (x, g x) := by
  rcases hlist : (List.range n).map (fun i => (i, g i)) with _ | ⟨p, ps⟩
  · have : n = 0 := by
      have := congrArg List.length hlist
      simpa using this
    omega
  · rw [nearestPoint, Option.some.injEq]
    have hmem : ps.foldl (chooseNearer x) p ∈ p :: ps := nearest_mem x p ps
    have hmin : ∀ q ∈ p :: ps,
        natDist (ps.foldl (chooseNearer x) p).1 x ≤ natDist q.1 x :=
      nearest_minDist x p ps
    rw [← hlist] at hmem hmin
    have hxmem : (x, g x) ∈ (List.range n).map (fun i => (i, g i)) :=
      List.mem_map_of_mem _ (List.mem_range.mpr hx)
    have h0 : natDist (ps.foldl (chooseNearer x) p).1 x = 0 := by
      have := hmin _ hxmem
      simpa [natDist_self] using this
    have hfst : (ps.foldl (chooseNearer x) p).1 = x := natDist_eq_zero h0
    rcases List.mem_map.mp hmem with ⟨i, _, hig⟩
    have hix : i = x := by rw [← hfst, ← hig]
    subst hix
    exact hig.symm

lemma foldl_add_const (n : ℕ) (f : ℕ → FVal) (c q : ℚ) (h : ∀ k < n, f k = FVal.val c) :
    (List.range n).foldl (fun acc k => FVal.add acc (f k)) (FVal.val q)
      = FVal.val (q + n * c) := by
  induction n with
  | zero => simp
  | succ m ih =>
    rw [List.range_succ, List.foldl_append, List.foldl_cons, List.foldl_nil,
      ih fun k hk => h k (by omega), h m (by omega)]
    simp only [FVal.add]
    congr 1
    push_cast
    ring

lemma slice_bounds (y m : ℕ) (h1 : 1 ≤ m) (h2 : m ≤ 12) :
    (get_one_month_slice y m).1 < (get_one_month_slice y m).2
    ∧ (get_one_month_slice y m).2 ≤ get_days_in_year y := by
  by_cases hy : isLeapYear y = true <;> interval_cases m <;>
    simp [get_one_month_slice, get_days_in_year, tm_yday, monthLength, hy, List.range_succ]

lemma hours_of_sunlight_equator (doy : ℕ) : calculate_hours_of_sunlight 0 doy = 12 := by
  unfold calculate_hours_of_sunlight daylight_from_sha sha_deg_from_doy_lat
  have hlat : radiansOfDeg 0 = 0 := by simp [radiansOfDeg]
  simp only [hlat, Real.tan_zero, neg_zero, zero_mul]
  rw [if_neg (by norm_num), if_neg (by norm_num)]
  rw [Real.arccos_zero]
  unfold degreesOfRad
  have hpi : Real.pi ≠ 0 := Real.pi_ne_zero
  field_simp
  ring

lemma length_interpolate_col (col : List FVal) :
    (interpolate_col col).length = col.length := by
  unfold interpolate_col
  split
  · exact List.length_replicate _ _
  · simp

lemma interpolate_col_lt3 {col : List FVal} (h : countKnown col < 3) :
    interpolate_col col = List.replicate col.length FVal.nan := by
  unfold interpolate_col
  rw [if_pos (show (knownPairs col).length < 3 from h)]

lemma interpolate_col_ge3 {col : List FVal} (h : 3 ≤ countKnown col) :
    interpolate_col col = (List.range col.length).map fun x =>
      match nearestPoint x (knownPairs col) with
      | some p => p.2
      | none => FVal.nan := by
  unfold interpolate_col
  rw [if_neg (show ¬(knownPairs col).length < 3 by unfold countKnown at h; omega)]

lemma interpolate_col_no_nan {col : List FVal} (h : 3 ≤ countKnown col) :
    ∀ w ∈ interpolate_col col, w.isNaN = false := by
  intro w hw
  rw [interpolate_col_ge3 h] at hw
  rcases List.mem_map.mp hw with ⟨x, _, hx⟩
  rcases hks : knownPairs col with _ | ⟨p, ps⟩
  · unfold countKnown at h
    rw [hks] at h
    simp at h
  · have hsome : nearestPoint x (knownPairs col) = some (ps.foldl (chooseNearer x) p) := by
      rw [hks]; rfl
    rw [hsome] at hx
    have hmem : ps.foldl (chooseNearer x) p ∈ knownPairs col := by
      rw [hks]; exact nearest_mem x p ps
    rw [← hx]
    exact (mem_knownPairs hmem).2.2

lemma interpolate_col_all_nan {col : List FVal} (h : ∀ v ∈ col, v.isNaN = true) :
    interpolate_col col = List.replicate col.length FVal.nan := by
  apply interpolate_col_lt3
  unfold countKnown
  rw [knownPairs_all_nan h]
  simp

lemma interpolate_col_idem (col : List FVal) :
    interpolate_col (interpolate_col col) = interpolate_col col := by
  by_cases h : countKnown col < 3
  · rw [interpolate_col_lt3 h]
    rw [interpolate_col_all_nan fun v hv => by
      rw [List.eq_of_mem_replicate hv]; rfl]
    rw [List.length_replicate]
  · push_neg at h
    have hout : interpolate_col col = (List.range col.length).map fun x =>
        match nearestPoint x (knownPairs col) with
        | some p => p.2
        | none => FVal.nan := interpolate_col_ge3 h
    set n := col.length with hn
    set out := interpolate_col col with hodef
    have hlen : out.length = n := length_interpolate_col col
    have houtD : ∀ i, i < n → out.getD i FVal.nan
        = match nearestPoint i (knownPairs col) with
          | some p => p.2
          | none => FVal.nan := by
      intro i hi
      rw [hout, getD_range_map _ _ hi]
    have hnonan : ∀ i, i < n → (out.getD i FVal.nan).isNaN = false := by
      intro i hi
      have hmem : out.getD i FVal.nan ∈ out := by
        rw [List.getD_eq_getElem?_getD, List.getElem?_eq_getElem (by omega), Option.getD_some]
        exact List.getElem_mem _
      exact interpolate_col_no_nan h _ hmem
    have hkp : knownPairs out = (List.range n).map fun i => (i, out.getD i FVal.nan) := by
      rw [knownPairs_of_no_nan (by rw [hlen]; exact hnonan), hlen]
    have hcnt : 3 ≤ countKnown out := by
      unfold countKnown
      rw [hkp, List.length_map, List.length_range]
      calc 3 ≤ countKnown col := h
        _ = (knownPairs col).length := rfl
        _ ≤ n := knownPairs_length_le col
    rw [interpolate_col_ge3 hcnt, hlen, hkp]
    have hpt : ∀ x ∈ List.range n,
        (match nearestPoint x ((List.range n).map fun i => (i, out.getD i FVal.nan)) with
          | some p => p.2
          | none => FVal.nan) = out.getD x FVal.nan := by
      intro x hx
      rw [List.mem_range] at hx
      rw [nearestPoint_self (fun i => out.getD i FVal.nan) hx]
    rw [List.map_congr_left hpt]
    -- a list of length n equals the map of its entries over range n
    apply List.ext_getElem
    · simp [hlen]
    · intro i hi1 hi2
      rw [List.getElem_map, List.getElem_range,
        List.getD_eq_getElem?_getD, List.getElem?_eq_getElem hi2, Option.getD_some]

/-! ## Claim theorems -/

/-- C1 (code bug): the claim says a non-monthly daily-mode ET observation is
written into the slot of its own day of year.  The code instead writes it
into the start slot of its month (`day_of_year, last_doy =
get_one_month_slice(year, month)` followed by the write at `day_of_year`):
the 2021-03-15 observation lands in slot 59 (March 1), its day-of-year slot
73 stays NaN, and a second observation of the same month (2021-03-20) is
dropped entirely by the NaN-only fill. -/
theorem et_daily_write_targets_month_start :
    (stepDate 2021 true sunConst initState c1ev).ET
        = some (setSlot (generate_sparse_stack 365 1 1) 59 [FVal.val 5])
    ∧ get_day_of_year 2021 3 15 = 73
    ∧ getSlot (((stepDate 2021 true sunConst initState c1ev).ET).getD []) 73 = [FVal.nan]
    ∧ (stepDate 2021 true sunConst (stepDate 2021 true sunConst initState c1ev) c1ev2).ET
        = some (setSlot (generate_sparse_stack 365 1 1) 59 [FVal.val 5])
    ∧ (59 : ℕ) ≠ 73 := by
  refine ⟨by decide, by decide, by decide, by decide, by decide⟩

/-- C2: every pixel column of `interpolate_stack` is processed independently;
a column with at least 3 known samples comes back free of NaN, a column with
fewer comes back entirely NaN. -/
theorem interpolate_column_policy (stack : List (List FVal)) (i : ℕ)
    (hi : i < stack.length) :
    (interpolate_stack stack).getD i [] = interpolate_col (stack.getD i [])
    ∧ (3 ≤ countKnown (stack.getD i []) →
        ∀ w ∈ (interpolate_stack stack).getD i [], w.isNaN = false)
    ∧ (countKnown (stack.getD i []) < 3 →
        ∀ w ∈ (interpolate_stack stack).getD i [], w = FVal.nan) := by
  have hmap : (interpolate_stack stack).getD i [] = interpolate_col (stack.getD i []) := by
    unfold interpolate_stack
    exact getD_map_of_lt interpolate_col [] [] stack i hi
  refine ⟨hmap, ?_, ?_⟩
  · intro h3 w hw
    rw [hmap] at hw
    exact interpolate_col_no_nan h3 w hw
  · intro hlt w hw
    rw [hmap, interpolate_col_lt3 hlt] at hw
    exact List.eq_of_mem_replicate hw

/-- Witness for C2 at the concrete two-column stack `c2stack`. -/
theorem interpolate_column_policy_witness :
    ((0 : ℕ) < c2stack.length
      ∧ 3 ≤ countKnown (c2stack.getD 0 [])
      ∧ ∀ w ∈ (interpolate_stack c2stack).getD 0 [], w.isNaN = false)
    ∧ ((1 : ℕ) < c2stack.length
      ∧ countKnown (c2stack.getD 1 []) < 3
      ∧ ∀ w ∈ (interpolate_stack c2stack).getD 1 [], w = FVal.nan) :=
  ⟨⟨by decide, by decide,
      (interpolate_column_policy c2stack 0 (by decide)).2.1 (by decide)⟩,
   ⟨by decide, by decide,
      (interpolate_column_policy c2stack 1 (by decide)).2.2 (by decide)⟩⟩

/-- C3: the registry lookup scans the declared sources in order and returns
the first whose variable matches and whose half-open range contains the
date; it returns `none`, not an error, when no source covers the date. -/
theorem lookup_first_match (ts : List VariableType) (v : String) (d : ℕ) :
    (get_available_variable_source_for_date ts v d = none ↔ ∀ s ∈ ts, ¬ matchesSource v d s)
    ∧ (∀ s, get_available_variable_source_for_date ts v d = some s →
        matchesSource v d s
        ∧ ∃ pre post, ts = pre ++ s :: post ∧ ∀ x ∈ pre, ¬ matchesSource v d x) := by
  induction ts with
  | nil =>
    refine ⟨by simp [get_available_variable_source_for_date], ?_⟩
    intro s hs
    simp [get_available_variable_source_for_date] at hs
  | cons hd tl ih =>
    by_cases h : matchesSource v d hd
    · refine ⟨?_, ?_⟩
      · simp [get_available_variable_source_for_date, h]
      · intro s hs
        simp only [get_available_variable_source_for_date, if_pos h, Option.some.injEq] at hs
        subst hs
        exact ⟨h, [], tl, rfl, by simp⟩
    · have heq : get_available_variable_source_for_date (hd :: tl) v d
          = get_available_variable_source_for_date tl v d := by
        simp [get_available_variable_source_for_date, h]
      refine ⟨?_, ?_⟩
      · rw [heq, ih.1]
        simp [List.forall_mem_cons, h]
      · intro s hs
        rw [heq] at hs
        obtain ⟨hm, pre, post, hts, hpre⟩ := ih.2 s hs
        refine ⟨hm, hd :: pre, post, by rw [hts, List.cons_append], ?_⟩
        intro x hx
        rcases List.mem_cons.mp hx with hx | hx
        · exact hx ▸ h
        · exact hpre x hx

/-- Witness for C3: a registry with two overlapping ranges for the same
variable deterministically resolves day 7 to the first-declared source. -/
theorem lookup_first_match_witness :
    get_available_variable_source_for_date [c3s1, c3s2] "ET" 7 = some c3s1
    ∧ matchesSource "ET" 7 c3s1
    ∧ ∃ pre post, [c3s1, c3s2] = pre ++ c3s1 :: post
        ∧ ∀ x ∈ pre, ¬ matchesSource "ET" 7 x := by
  have h := (lookup_first_match [c3s1, c3s2] "ET" 7).2 c3s1 (by decide)
  exact ⟨by decide, h.1, h.2⟩

/-- C4: when, after the date loop, no PET stack was ever allocated but an ESI
stack was, `generate_stack` derives PET as the element-wise quotient
`ET_sparse_stack / ESI_sparse_stack` over every slot and pixel; with ET 2.0
everywhere and ESI 0.5 everywhere over 365 slots the quotient is 4.0
everywhere. -/
theorem derived_pet_is_elementwise_quotient (year : ℕ) (daily : Bool)
    (sun : ℕ → ℕ → ℚ) (events : List DateStep) (et esi : Stack)
    (hne : events ≠ [])
    (hET : (runDates year daily sun events).ET = some et)
    (hPET : (runDates year daily sun events).PET = none)
    (hESI : (runDates year daily sun events).ESI = some esi) :
    generate_stack_model year daily sun events = .ok (et, stackDiv et esi)
    ∧ (∀ t p, (getSlot (stackDiv et esi) t).getD p FVal.nan
        = FVal.div ((getSlot et t).getD p FVal.nan) ((getSlot esi t).getD p FVal.nan))
    ∧ (∀ np : ℕ, stackDiv (List.replicate 365 (List.replicate np (FVal.val 2)))
          (List.replicate 365 (List.replicate np (FVal.val (1 / 2))))
        = List.replicate 365 (List.replicate np (FVal.val 4))) := by
  have hie : events.isEmpty = false := by
    cases events with
    | nil => exact absurd rfl hne
    | cons a l => rfl
  refine ⟨?_, ?_, ?_⟩
  · simp [generate_stack_model, hie, hET, hPET, hESI]
  · intro t p
    rw [getSlot_stackDiv, zipWith_div_getD]
  · intro np
    unfold stackDiv
    rw [List.zipWith_replicate, Nat.min_self]
    rw [List.zipWith_replicate, Nat.min_self]
    have hdiv : FVal.div (FVal.val 2) (FVal.val (1 / 2)) = FVal.val 4 := by
      norm_num [FVal.div]
    rw [hdiv]

/-- Witness for C4: a single successful ET-only date (PET and ESI retrieval
both unavailable) leaves the PET stack unallocated while the ESI stack is
allocated all-NaN, and the builder returns the quotient stack. -/
theorem derived_pet_witness :
    ([c4ev] ≠ ([] : List DateStep))
    ∧ (runDates 2021 true sunConst [c4ev]).ET
        = some (setSlot (generate_sparse_stack 365 1 1) 0 [FVal.val 2])
    ∧ (runDates 2021 true sunConst [c4ev]).PET = none
    ∧ (runDates 2021 true sunConst [c4ev]).ESI = some (generate_sparse_stack 365 1 1)
    ∧ generate_stack_model 2021 true sunConst [c4ev]
        = .ok (setSlot (generate_sparse_stack 365 1 1) 0 [FVal.val 2],
            stackDiv (setSlot (generate_sparse_stack 365 1 1) 0 [FVal.val 2])
              (generate_sparse_stack 365 1 1)) := by
  have h := derived_pet_is_elementwise_quotient 2021 true sunConst [c4ev]
    (setSlot (generate_sparse_stack 365 1 1) 0 [FVal.val 2])
    (generate_sparse_stack 365 1 1)
    (by decide) (by decide) (by decide) (by decide)
  exact ⟨by decide, by decide, by decide, by decide, h.1⟩

/-- C5: an ET retrieval failure for one date leaves the loop state untouched
and the loop continues with the remaining dates; after the loop the builder
raises exactly when the ET stack was never populated or neither the PET nor
the ESI stack was; and `process_year` catches the raised error and returns
`None` instead of crashing the batch. -/
theorem failure_semantics :
    (∀ (year : ℕ) (daily : Bool) (sun : ℕ → ℕ → ℚ) (st : StackState) (ev : DateStep)
        (evs : List DateStep),
      ev.et = .blank ∨ ev.et = .unavailable ∨ ev.et = .err →
      (ev :: evs).foldl (stepDate year daily sun) st = evs.foldl (stepDate year daily sun) st)
    ∧ (∀ (year : ℕ) (daily : Bool) (sun : ℕ → ℕ → ℚ) (events : List DateStep),
        events ≠ [] →
        ((∃ e, generate_stack_model year daily sun events = .error e)
          ↔ ((runDates year daily sun events).ET = none
            ∨ ((runDates year daily sun events).PET = none
              ∧ (runDates year daily sun events).ESI = none))))
    ∧ (∀ r : Except String (Stack × Stack),
        (∃ e, r = .error e) → process_year_model r = none) := by
  refine ⟨?_, ?_, ?_⟩
  · intro year daily sun st ev evs h
    rw [List.foldl_cons]
    have hstep : stepDate year daily sun st ev = st := by
      rcases h with h | h | h <;> simp [stepDate, h]
    rw [hstep]
  · intro year daily sun events hne
    have hie : events.isEmpty = false := by
      cases events with
      | nil => exact absurd rfl hne
      | cons a l => rfl
    rcases hET : (runDates year daily sun events).ET with _ | et
    · simp [generate_stack_model, hie, hET]
    · rcases hPET : (runDates year daily sun events).PET with _ | pet
      · rcases hESI : (runDates year daily sun events).ESI with _ | esi
        · simp [generate_stack_model, hie, hET, hPET, hESI]
        · simp [generate_stack_model, hie, hET, hPET, hESI]
      · simp [generate_stack_model, hie, hET, hPET]
  · intro r h
    rcases h with ⟨e, he⟩
    rw [he]
    rfl

/-- Witness for C5: a year whose single date fails with `FileUnavailable`
is skipped date-wise, ends with no ET stack, raises, and the caller model
returns `None`. -/
theorem failure_semantics_witness :
    (c5ev.et = .blank ∨ c5ev.et = .unavailable ∨ c5ev.et = .err)
    ∧ [c5ev].foldl (stepDate 2021 true sunConst) initState
        = [].foldl (stepDate 2021 true sunConst) initState
    ∧ ([c5ev] ≠ ([] : List DateStep))
    ∧ (∃ e, generate_stack_model 2021 true sunConst [c5ev] = .error e)
    ∧ process_year_model (generate_stack_model 2021 true sunConst [c5ev]) = none := by
  have h1 : c5ev.et = .blank ∨ c5ev.et = .unavailable ∨ c5ev.et = .err :=
    Or.inr (Or.inl rfl)
  have h2 := failure_semantics.1 2021 true sunConst initState c5ev [] h1
  have hne : [c5ev] ≠ ([] : List DateStep) := by decide
  have herr : ∃ e, generate_stack_model 2021 true sunConst [c5ev] = .error e :=
    (failure_semantics.2.1 2021 true sunConst [c5ev] hne).mpr (Or.inl (by decide))
  exact ⟨h1, h2, hne, herr, failure_semantics.2.2 _ herr⟩

/-- C6 (amended): in daily-interpolation mode, a monthly PET source that is
not daylight-corrected fills every day `d` of the month with the flat daily
average `PET_subset / days_in_month` scaled by that day's
`hours_of_sunlight / 24` (the hours value `sun month day` computed by the
solar calculator for the ROI centroid); a daylight-corrected source fills
every day with the unscaled flat daily average.  Distinct days receive
individually computed values, which need not be pairwise distinct (see the
counterexample at an equatorial ROI). -/
theorem pet_monthly_daylight_fill (year : ℕ) (sun : ℕ → ℕ → ℚ) (st : StackState)
    (ev : DateStep) (etImg petImg : Image) (d : ℕ)
    (hET : ev.et = .ok etImg) (hPET : ev.pet = .ok petImg)
    (hm : ev.pet_source_monthly = true)
    (h1 : 1 ≤ ev.month) (h2 : ev.month ≤ 12)
    (hfresh : st.PET = none)
    (hd1 : (get_one_month_slice year ev.month).1 ≤ d)
    (hd2 : d < (get_one_month_slice year ev.month).2) :
    ∃ ps, (stepDate year true sun st ev).PET = some ps
      ∧ (ev.pet_daylight_corrected = false →
          getSlot ps d = imgScaleSun (imgDivNat petImg (get_days_in_month year ev.month))
            (sun ev.month (d - (get_one_month_slice year ev.month).1 + 1)))
      ∧ (ev.pet_daylight_corrected = true →
          getSlot ps d = imgDivNat petImg (get_days_in_month year ev.month)) := by
  have hb : (get_one_month_slice year ev.month).2
      ≤ (generate_sparse_stack (get_days_in_year year) petImg.length 1).length := by
    rw [length_generate_sparse_stack]
    exact (slice_bounds year ev.month h1 h2).2
  rcases Bool.eq_false_or_eq_true ev.pet_daylight_corrected with hdc | hdc
  · refine ⟨fillRange (generate_sparse_stack (get_days_in_year year) petImg.length 1)
      (get_one_month_slice year ev.month).1 (get_one_month_slice year ev.month).2
      (imgDivNat petImg (get_days_in_month year ev.month)), ?_, ?_, ?_⟩
    · simp [stepDate, hET, hPET, hm, hfresh, hdc, fillRange]
    · intro hc
      rw [hdc] at hc
      exact absurd hc (by simp)
    · intro _
      exact getSlot_fillRange_in _ hb hd1 hd2
  · refine ⟨fillEachDay (generate_sparse_stack (get_days_in_year year) petImg.length 1)
      (get_one_month_slice year ev.month).1 (get_one_month_slice year ev.month).2
      (fun dd => imgScaleSun (imgDivNat petImg (get_days_in_month year ev.month))
        (sun ev.month (dd - (get_one_month_slice year ev.month).1 + 1))), ?_, ?_, ?_⟩
    · simp [stepDate, hET, hPET, hm, hfresh, hdc]
    · intro _
      exact getSlot_fillEachDay_in _ hb hd1 hd2
    · intro hc
      rw [hdc] at hc
      exact absurd hc (by simp)

/-- Witness for C6 (amended), at January 2021, a 1-pixel monthly PET raster
with value 48, day 5 of the year (January 6): the uncorrected source yields
`48/31 / 24 * sun`, the corrected source the flat `48/31`. -/
theorem pet_monthly_daylight_fill_witness :
    (c6evA.et = .ok [FVal.val 1] ∧ c6evA.pet = .ok [FVal.val 48]
      ∧ c6evA.pet_source_monthly = true ∧ 1 ≤ c6evA.month ∧ c6evA.month ≤ 12
      ∧ initState.PET = none
      ∧ (get_one_month_slice 2021 c6evA.month).1 ≤ 5
      ∧ 5 < (get_one_month_slice 2021 c6evA.month).2)
    ∧ (∃ ps, (stepDate 2021 true sunConst initState c6evA).PET = some ps
        ∧ (c6evA.pet_daylight_corrected = false →
            getSlot ps 5 = imgScaleSun
              (imgDivNat [FVal.val 48] (get_days_in_month 2021 c6evA.month))
              (sunConst c6evA.month (5 - (get_one_month_slice 2021 c6evA.month).1 + 1)))
        ∧ (c6evA.pet_daylight_corrected = true →
            getSlot ps 5 = imgDivNat [FVal.val 48] (get_days_in_month 2021 c6evA.month)))
    ∧ (∃ ps, (stepDate 2021 true sunConst initState c6evB).PET = some ps
        ∧ (c6evB.pet_daylight_corrected = false →
            getSlot ps 5 = imgScaleSun
              (imgDivNat [FVal.val 48] (get_days_in_month 2021 c6evB.month))
              (sunConst c6evB.month (5 - (get_one_month_slice 2021 c6evB.month).1 + 1)))
        ∧ (c6evB.pet_daylight_corrected = true →
            getSlot ps 5 = imgDivNat [FVal.val 48] (get_days_in_month 2021 c6evB.month))) :=
  ⟨⟨rfl, rfl, rfl, by decide, by decide, rfl, by decide, by decide⟩,
   pet_monthly_daylight_fill 2021 sunConst initState c6evA [FVal.val 1] [FVal.val 48] 5
     rfl rfl rfl (by decide) (by decide) rfl (by decide) (by decide),
   pet_monthly_daylight_fill 2021 sunConst initState c6evB [FVal.val 1] [FVal.val 48] 5
     rfl rfl rfl (by decide) (by decide) rfl (by decide) (by decide)⟩

/-- Counterexample to C6 as stated: at an equatorial ROI (centroid latitude
0) the solar calculator returns exactly 12 daylight hours for every day of
the year, so two distinct days of the same month receive equal corrected
per-day PET values, contradicting "distinct days get distinct values". -/
theorem pet_daylight_distinct_days_counterexample :
    corrected_daily_pet_value 1 0 156 = corrected_daily_pet_value 1 0 157
    ∧ (156 : ℕ) ≠ 157
    ∧ calculate_hours_of_sunlight 0 156 = 12
    ∧ calculate_hours_of_sunlight 0 157 = 12 := by
  refine ⟨?_, by decide, hours_of_sunlight_equator 156, hours_of_sunlight_equator 157⟩
  unfold corrected_daily_pet_value
  rw [hours_of_sunlight_equator, hours_of_sunlight_equator]

lemma whereNaNFill_getD (current img : Image) (i : ℕ)
    (h1 : i < current.length) (h2 : i < img.length) :
    (whereNaNFill current img).getD i FVal.nan
      = if (current.getD i FVal.nan).isNaN then img.getD i FVal.nan
        else current.getD i FVal.nan := by
  induction current generalizing img i with
  | nil => simp at h1
  | cons a as ih =>
    cases img with
    | nil => simp at h2
    | cons b bs =>
      cases i with
      | zero => rfl
      | succ j =>
        show (whereNaNFill as bs).getD j FVal.nan = _
        exact ih bs j (by simpa using h1) (by simpa using h2)

/-- C7: NaN-as-missing is preserved: sparse stacks are allocated entirely
NaN; the NaN-guarded write puts the observed value (never 0) into NaN cells
and leaves written cells alone; interpolation maps an all-NaN column to an
all-NaN column; and the monthly aggregate of an all-NaN slice is NaN, not 0
(the aggregation step is modelled from the spec, see `monthly_aggregate`). -/
theorem nan_preserved_end_to_end :
    (∀ t r c, ∀ slot ∈ generate_sparse_stack t r c, ∀ w ∈ slot, w = FVal.nan)
    ∧ (∀ (current img : Image) (i : ℕ), i < current.length → i < img.length →
        (whereNaNFill current img).getD i FVal.nan
          = if (current.getD i FVal.nan).isNaN then img.getD i FVal.nan
            else current.getD i FVal.nan)
    ∧ (∀ col : List FVal, (∀ v ∈ col, v.isNaN = true) →
        ∀ w ∈ interpolate_col col, w = FVal.nan)
    ∧ (∀ slice : List FVal, (∀ v ∈ slice, v.isNaN = true) →
        monthly_aggregate slice = FVal.nan) := by
  refine ⟨?_, ?_, ?_, ?_⟩
  · intro t r c slot hslot w hw
    rw [List.eq_of_mem_replicate hslot] at hw
    exact List.eq_of_mem_replicate hw
  · intro current img i h1 h2
    exact whereNaNFill_getD current img i h1 h2
  · intro col h w hw
    rw [interpolate_col_all_nan h] at hw
    exact List.eq_of_mem_replicate hw
  · intro slice h
    unfold monthly_aggregate
    rw [if_pos (List.all_eq_true.mpr h)]

/-- Witness for C7 at concrete inputs: a fresh 2-slot 1-pixel stack, one
guarded write over a half-written slot, an all-NaN column, and an all-NaN
month slice. -/
theorem nan_preserved_witness :
    (∀ w ∈ List.replicate 1 FVal.nan, w = FVal.nan)
    ∧ ((whereNaNFill [FVal.nan, FVal.val 2] [FVal.val 7, FVal.val 8]).getD 0 FVal.nan
        = if (([FVal.nan, FVal.val 2].getD 0 FVal.nan).isNaN)
          then [FVal.val 7, FVal.val 8].getD 0 FVal.nan
          else [FVal.nan, FVal.val 2].getD 0 FVal.nan)
    ∧ (∀ w ∈ interpolate_col [FVal.nan, FVal.nan, FVal.nan], w = FVal.nan)
    ∧ monthly_aggregate [FVal.nan, FVal.nan] = FVal.nan :=
  ⟨nan_preserved_end_to_end.1 2 1 1 (List.replicate 1 FVal.nan) (by decide),
   nan_preserved_end_to_end.2.1 [FVal.nan, FVal.val 2] [FVal.val 7, FVal.val 8] 0
     (by decide) (by decide),
   nan_preserved_end_to_end.2.2.1 [FVal.nan, FVal.nan, FVal.nan] (by decide),
   nan_preserved_end_to_end.2.2.2 [FVal.nan, FVal.nan] (by decide)⟩

/-- C8: `interpolate_stack` is idempotent: applying it to its own output
reproduces the output exactly (nearest-neighbor interpolation returns known
samples unchanged, and skipped columns stay all-NaN with too few knowns). -/
theorem interpolate_stack_idempotent (stack : List (List FVal)) :
    interpolate_stack (interpolate_stack stack) = interpolate_stack stack := by
  unfold interpolate_stack
  rw [List.map_map]
  exact List.map_congr_left fun col _ => interpolate_col_idem col

/-- C9: a monthly-sum pixel value `v` of a 30-day month, redistributed over
the month slice as the per-day value `v / days_in_month` (without daylight
correction, exactly as the monthly ET broadcast does) and re-summed over the
30 day slots, gives back exactly `v` (in the exact-arithmetic model of the
float pipeline). -/
theorem monthly_redistribution_roundtrip (v : ℚ) (y m : ℕ) (h1 : 1 ≤ m) (h2 : m ≤ 12)
    (h30 : get_days_in_month y m = 30) :
    monthResum
      (fillRange (generate_sparse_stack (get_days_in_year y) 1 1)
        (get_one_month_slice y m).1 (get_one_month_slice y m).2
        (imgDivNat [FVal.val v] (get_days_in_month y m)))
      (get_one_month_slice y m).1 (get_one_month_slice y m).2 0
      = FVal.val v := by
  obtain ⟨hlt, hle⟩ := slice_bounds y m h1 h2
  have hba : (get_one_month_slice y m).2 - (get_one_month_slice y m).1 = 30 := h30
  have himg : imgDivNat [FVal.val v] (get_days_in_month y m) = [FVal.val (v / 30)] := by
    rw [h30]
    show [FVal.div (FVal.val v) (FVal.val ((30 : ℕ) : ℚ))] = [FVal.val (v / 30)]
    norm_num [FVal.div]
  rw [himg]
  unfold monthResum
  have hslot : ∀ k < (get_one_month_slice y m).2 - (get_one_month_slice y m).1,
      (getSlot (fillRange (generate_sparse_stack (get_days_in_year y) 1 1)
          (get_one_month_slice y m).1 (get_one_month_slice y m).2 [FVal.val (v / 30)])
        ((get_one_month_slice y m).1 + k)).getD 0 FVal.nan = FVal.val (v / 30) := by
    intro k hk
    rw [getSlot_fillRange_in _ (by rw [length_generate_sparse_stack]; exact hle)
      (by omega) (by omega)]
    rfl
  rw [foldl_add_const _ _ (v / 30) 0 hslot, hba]
  congr 1
  push_cast
  field_simp

/-- Witness for C9: `v = 7` over September 2021 (a 30-day month). -/
theorem monthly_redistribution_roundtrip_witness :
    ((1 : ℕ) ≤ 9 ∧ (9 : ℕ) ≤ 12 ∧ get_days_in_month 2021 9 = 30)
    ∧ monthResum
        (fillRange (generate_sparse_stack (get_days_in_year 2021) 1 1)
          (get_one_month_slice 2021 9).1 (get_one_month_slice 2021 9).2
          (imgDivNat [FVal.val 7] (get_days_in_month 2021 9)))
        (get_one_month_slice 2021 9).1 (get_one_month_slice 2021 9).2 0
        = FVal.val 7 :=
  ⟨⟨by decide, by decide, by decide⟩,
   monthly_redistribution_roundtrip 7 2021 9 (by decide) (by decide) (by decide)⟩

/-- C10: for every year, the month slices of `get_one_month_slice` are
half-open, adjacent in month order, and partition `[0, get_days_in_year y)`;
`get_days_in_month` equals the slice length `end - start`. -/
theorem month_slices_partition (y m : ℕ) (h1 : 1 ≤ m) (h2 : m ≤ 12) :
    (get_one_month_slice y 1).1 = 0
    ∧ (get_one_month_slice y 12).2 = get_days_in_year y
    ∧ (get_one_month_slice y m).1 < (get_one_month_slice y m).2
    ∧ (m < 12 → (get_one_month_slice y m).2 = (get_one_month_slice y (m + 1)).1)
    ∧ get_days_in_month y m
        = (get_one_month_slice y m).2 - (get_one_month_slice y m).1 := by
  by_cases hy : isLeapYear y = true <;> interval_cases m <;>
    simp [get_one_month_slice, get_days_in_month, get_days_in_year, tm_yday, monthLength, hy,
      List.range_succ]

/-- Witness for C10 at year 2021 and month 3. -/
theorem month_slices_partition_witness :
    ((1 : ℕ) ≤ 3 ∧ (3 : ℕ) ≤ 12)
    ∧ ((get_one_month_slice 2021 1).1 = 0
      ∧ (get_one_month_slice 2021 12).2 = get_days_in_year 2021
      ∧ (get_one_month_slice 2021 3).1 < (get_one_month_slice 2021 3).2
      ∧ (3 < 12 → (get_one_month_slice 2021 3).2 = (get_one_month_slice 2021 4).1)
      ∧ get_days_in_month 2021 3
          = (get_one_month_slice 2021 3).2 - (get_one_month_slice 2021 3).1) :=
  ⟨⟨by decide, by decide⟩, month_slices_partition 2021 3 (by decide) (by decide)⟩

end ETTool
